import Mathlib

/-!
Verification of the off-chain order-matching engine (OpenSea/Wyvern SDK).

The repository ships its type layer (`src/types.ts`) and its test-suite; the
engine itself (`getOrderHash`, `orderFromJSON`, `orderToJSON`, the calldata
merger, the price calculator, `_makeMatchingOrder`, `_validateMatch`) is not
part of the visible sources, so those operations are modelled from the
specification (sections 4.1 to 4.6 and 6), as noted on each definition.
-/

namespace Opensea

/-- Wyvern order side: buy or sell (src/types.ts, lines 74 to 77). -/
inductive OrderSide
  | Buy
  | Sell
  deriving DecidableEq

/-- Numeric encoding of `OrderSide` at the public interface: `Buy = 0`, `Sell = 1`. -/
def OrderSide.toNat : OrderSide → Nat
  | .Buy => 0
  | .Sell => 1

/-- The opposite side, used by the match synthesizer. -/
def OrderSide.flip : OrderSide → OrderSide
  | .Buy => .Sell
  | .Sell => .Buy

/-- Wyvern fee method (src/types.ts, lines 84 to 87). -/
inductive FeeMethod
  | ProtocolFee
  | SplitFee
  deriving DecidableEq

/-- Numeric encoding of `FeeMethod`: `ProtocolFee = 0`, `SplitFee = 1`. -/
def FeeMethod.toNat : FeeMethod → Nat
  | .ProtocolFee => 0
  | .SplitFee => 1

/-- Wyvern sale kind (src/types.ts, lines 94 to 97). Deliberately not imported from
wyvern-js, whose encoding differs. -/
inductive SaleKind
  | FixedPrice
  | DutchAuction
  deriving DecidableEq

/-- Numeric encoding of `SaleKind`: `FixedPrice = 0`, `DutchAuction = 1`. -/
def SaleKind.toNat : SaleKind → Nat
  | .FixedPrice => 0
  | .DutchAuction => 1

/-- Modelled from the code comment in src/types.ts (lines 89 to 93): the upstream
wyvern-js library encodes EnglishAuction as 1 and DutchAuction as 2. -/
inductive WyvernLibSaleKind
  | FixedPrice
  | EnglishAuction
  | DutchAuction
  deriving DecidableEq

/-- Numeric encoding used by the upstream wyvern-js library. -/
def WyvernLibSaleKind.toNat : WyvernLibSaleKind → Nat
  | .FixedPrice => 0
  | .EnglishAuction => 1
  | .DutchAuction => 2

/-- Hex-encoded byte strings (`calldata`, `replacementPattern`, `staticExtradata`)
are modelled as lists of byte values. -/
abbrev Bytes := List Nat

/-- Modelled from the spec: error raised by the calldata merger (section 4.4 and
section 7), carrying the first mismatching byte offset. -/
inductive MergeError
  | CalldataMismatchError (offset : Nat)
  deriving DecidableEq

/-- Modelled from the spec: the positional worker of the calldata merger
(section 4.4), threading the absolute byte offset `k`. Where the mask byte is
set (non-zero) the output byte comes from `replacement`; where it is unset the
output byte comes from `target` and the corresponding `replacement` byte must
equal it, a mismatch failing with the offset. -/
def mergeAux : Bytes → Bytes → Bytes → Nat → Except MergeError Bytes
  | t :: ts, r :: rs, m :: ms, k =>
    if m ≠ 0 then
      (mergeAux ts rs ms (k + 1)).map (fun bs => r :: bs)
    else if t = r then
      (mergeAux ts rs ms (k + 1)).map (fun bs => t :: bs)
    else
      .error (.CalldataMismatchError k)
  | _, _, _, _ => .ok []

/-- Modelled from the spec: `merge(target, replacement, mask)` of the Calldata
Merger (section 4.4); all three buffers are expected to have equal length. -/
def merge (target replacement mask : Bytes) : Except MergeError Bytes :=
  mergeAux target replacement mask 0

/-- Boolean success test of a merge, as used by the match validator. -/
def mergeOk (target replacement mask : Bytes) : Bool :=
  match merge target replacement mask with
  | .ok _ => true
  | .error _ => false

theorem mergeAux_error_first (t : Bytes) : ∀ r m : Bytes, ∀ k i : Nat,
    r.length = t.length → m.length = t.length →
    i < t.length → m.getD i 1 = 0 → t.getD i 0 ≠ r.getD i 0 →
    ∃ j, mergeAux t r m k = .error (.CalldataMismatchError (k + j)) ∧
      m.getD j 1 = 0 ∧ t.getD j 0 ≠ r.getD j 0 ∧
      ∀ l, l < j → m.getD l 1 = 0 → t.getD l 0 = r.getD l 0 := by
  induction t with
  | nil =>
    intro r m k i _ _ hi _ _
    simp at hi
  | cons a ts ih =>
    intro r m k i hr hm hi hmask hne
    match r, m with
    | b :: rs, c :: ms =>
      simp only [List.length_cons, Nat.add_right_cancel_iff] at hr hm
      by_cases hc : c = 0
      · by_cases hab : a = b
        · -- head position passes the fixed-byte check, so the mismatch is deeper
          have hi0 : i ≠ 0 := by
            intro h0
            subst h0
            simp only [List.getD_cons_zero] at hne
            exact hne hab
          obtain ⟨i', rfl⟩ : ∃ i', i = i' + 1 := ⟨i - 1, by omega⟩
          have hi' : i' < ts.length := by simpa using hi
          have hmask' : ms.getD i' 1 = 0 := by simpa using hmask
          have hne' : ts.getD i' 0 ≠ rs.getD i' 0 := by simpa using hne
          obtain ⟨j, hj, hjm, hjne, hjfirst⟩ := ih rs ms (k + 1) i' hr hm hi' hmask' hne'
          refine ⟨j + 1, ?_, by simpa using hjm, by simpa using hjne, ?_⟩
          · have hk : k + (j + 1) = k + 1 + j := by omega
            rw [hk]
            simp [mergeAux, hc, hab, hj, Except.map]
          · intro l hl hlm
            match l with
            | 0 => simp [hab]
            | l' + 1 =>
              have hl' : l' < j := by omega
              simpa using hjfirst l' hl' (by simpa using hlm)
        · -- head position is the first mismatch
          refine ⟨0, ?_, by simpa using hc, by simpa using hab, ?_⟩
          · simp [mergeAux, hc, hab]
          · intro l hl _
            exact absurd hl (Nat.not_lt_zero l)
      · -- mask set at the head: the byte is substituted, mismatch is deeper
        have hi0 : i ≠ 0 := by
          intro h0
          subst h0
          simp only [List.getD_cons_zero] at hmask
          exact hc hmask
        obtain ⟨i', rfl⟩ : ∃ i', i = i' + 1 := ⟨i - 1, by omega⟩
        have hi' : i' < ts.length := by simpa using hi
        have hmask' : ms.getD i' 1 = 0 := by simpa using hmask
        have hne' : ts.getD i' 0 ≠ rs.getD i' 0 := by simpa using hne
        obtain ⟨j, hj, hjm, hjne, hjfirst⟩ := ih rs ms (k + 1) i' hr hm hi' hmask' hne'
        refine ⟨j + 1, ?_, by simpa using hjm, by simpa using hjne, ?_⟩
        · have hk : k + (j + 1) = k + 1 + j := by omega
          rw [hk]
          simp [mergeAux, hc, hj, Except.map]
        · intro l hl hlm
          match l with
          | 0 =>
            simp only [List.getD_cons_zero] at hlm
            exact absurd hlm hc
          | l' + 1 =>
            have hl' : l' < j := by omega
            simpa using hjfirst l' hl' (by simpa using hlm)
    | [], _ => simp at hr
    | _ :: _, [] => simp at hm

/-- C4: on equal-length buffers, a position where the mask is unset and target and
replacement disagree makes `merge` fail with `CalldataMismatchError` naming the
first such mismatching byte offset; it never silently returns a merged result. -/
theorem merge_first_mismatch_error (t r m : Bytes)
    (hr : r.length = t.length) (hm : m.length = t.length)
    (i : Nat) (hi : i < t.length) (hmask : m.getD i 1 = 0)
    (hne : t.getD i 0 ≠ r.getD i 0) :
    ∃ j, merge t r m = .error (.CalldataMismatchError j) ∧
      m.getD j 1 = 0 ∧ t.getD j 0 ≠ r.getD j 0 ∧
      ∀ l, l < j → m.getD l 1 = 0 → t.getD l 0 = r.getD l 0 := by
  obtain ⟨j, hj, hjm, hjne, hjfirst⟩ := mergeAux_error_first t r m 0 i hr hm hi hmask hne
  exact ⟨j, by simpa [merge] using hj, hjm, hjne, hjfirst⟩

theorem merge_first_mismatch_error_witness :
    ∃ j, merge [5, 9, 4] [5, 7, 8] [0, 0, 255] = .error (.CalldataMismatchError j) ∧
      [0, 0, 255].getD j 1 = 0 ∧ [5, 9, 4].getD j 0 ≠ [5, 7, 8].getD j 0 ∧
      ∀ l, l < j → [0, 0, 255].getD l 1 = 0 → [5, 9, 4].getD l 0 = [5, 7, 8].getD l 0 :=
  merge_first_mismatch_error [5, 9, 4] [5, 7, 8] [0, 0, 255]
    (by decide) (by decide) 1 (by decide) (by decide) (by decide)

theorem mergeAux_self (t : Bytes) : ∀ m : Bytes, ∀ k : Nat,
    m.length = t.length → mergeAux t t m k = .ok t := by
  induction t with
  | nil => intro m k _; cases m <;> simp [mergeAux]
  | cons a ts ih =>
    intro m k hm
    match m with
    | c :: ms =>
      simp only [List.length_cons, Nat.add_right_cancel_iff] at hm
      by_cases hc : c = 0 <;>
        simp [mergeAux, hc, ih ms (k + 1) hm, Except.map]

theorem mergeAux_zero_mask (t : Bytes) : ∀ r m : Bytes, ∀ k : Nat, ∀ out : Bytes,
    r.length = t.length → m.length = t.length → (∀ b ∈ m, b = 0) →
    mergeAux t r m k = .ok out → out = t := by
  induction t with
  | nil =>
    intro r m k out hr hm _ h
    simp only [List.length_nil, List.length_eq_zero] at hr hm
    subst hr; subst hm
    simp [mergeAux] at h
    exact h
  | cons a ts ih =>
    intro r m k out hr hm hz h
    match r, m with
    | b :: rs, c :: ms =>
      simp only [List.length_cons, Nat.add_right_cancel_iff] at hr hm
      have hc : c = 0 := hz c (by simp)
      by_cases hab : a = b
      · rw [mergeAux, if_neg (by simp [hc]), if_pos hab] at h
        cases hrec : mergeAux ts rs ms (k + 1) with
        | ok os =>
          rw [hrec] at h
          simp only [Except.map, Except.ok.injEq] at h
          have := ih rs ms (k + 1) os hr hm (fun b hb => hz b (by simp [hb])) hrec
          rw [← h, this]
        | error e => rw [hrec] at h; simp [Except.map] at h
      · rw [mergeAux, if_neg (by simp [hc]), if_neg hab] at h
        simp at h
    | [], _ => simp at hr
    | _ :: _, [] => simp at hm

theorem mergeAux_full_mask (t : Bytes) : ∀ r m : Bytes, ∀ k : Nat,
    r.length = t.length → m.length = t.length → (∀ b ∈ m, b ≠ 0) →
    mergeAux t r m k = .ok r := by
  induction t with
  | nil =>
    intro r m k hr hm _
    simp only [List.length_nil, List.length_eq_zero] at hr hm
    subst hr; subst hm
    simp [mergeAux]
  | cons a ts ih =>
    intro r m k hr hm hnz
    match r, m with
    | b :: rs, c :: ms =>
      simp only [List.length_cons, Nat.add_right_cancel_iff] at hr hm
      have hc : c ≠ 0 := hnz c (by simp)
      rw [mergeAux, if_pos hc, ih rs ms (k + 1) hr hm (fun b hb => hnz b (by simp [hb]))]
      simp [Except.map]
    | [], _ => simp at hr
    | _ :: _, [] => simp at hm

/-- C5 counterexample: under an all-zero mask with `target ≠ replacement`, `merge`
does not return `target`; it fails the fixed-byte check instead. -/
theorem merge_zero_mask_counterexample :
    merge [3] [4] [0] ≠ .ok [3] ∧
    merge [3] [4] [0] = .error (.CalldataMismatchError 0) := by
  constructor
  · simp [merge, mergeAux]
  · simp [merge, mergeAux]

/-- C5 (amended): for equal-length buffers, `merge target target mask = target`
(idempotence); under an all-zero mask the result, whenever the merge succeeds,
is `target` unchanged (success forces the fixed-byte check, so every byte of
`replacement` already equals `target`); under an all-set mask the result is
`replacement` unchanged, the fixed-byte check being vacuous. -/
theorem merge_algebra (t r m : Bytes) :
    (m.length = t.length → merge t t m = .ok t) ∧
    (r.length = t.length → m.length = t.length → (∀ b ∈ m, b = 0) →
      ∀ out, merge t r m = .ok out → out = t) ∧
    (r.length = t.length → m.length = t.length → (∀ b ∈ m, b ≠ 0) →
      merge t r m = .ok r) := by
  refine ⟨fun hm => mergeAux_self t m 0 hm, ?_, ?_⟩
  · intro hr hm hz out h
    exact mergeAux_zero_mask t r m 0 out hr hm hz h
  · intro hr hm hnz
    exact mergeAux_full_mask t r m 0 hr hm hnz

theorem merge_algebra_witness :
    merge [8, 1] [8, 1] [0, 255] = .ok [8, 1] ∧
    (∀ out, merge [8, 1] [8, 1] [0, 0] = .ok out → out = [8, 1]) ∧
    merge [8, 1] [9, 2] [255, 255] = .ok [9, 2] :=
  ⟨(merge_algebra [8, 1] [8, 1] [0, 255]).1 (by decide),
   fun out h => (merge_algebra [8, 1] [8, 1] [0, 0]).2.1 (by decide) (by decide)
     (by decide) out h,
   (merge_algebra [8, 1] [9, 2] [255, 255]).2.2 (by decide) (by decide) (by decide)⟩

theorem mergeAux_stable (t : Bytes) : ∀ r m : Bytes, ∀ k : Nat, ∀ out : Bytes,
    mergeAux t r m k = .ok out → mergeAux t out m k = .ok out := by
  induction t with
  | nil =>
    intro r m k out h
    simp only [mergeAux] at h
    obtain rfl : ([] : Bytes) = out := by simpa using h
    simp [mergeAux]
  | cons a ts ih =>
    intro r m k out h
    match r, m with
    | [], _ =>
      simp only [mergeAux] at h
      obtain rfl : ([] : Bytes) = out := by simpa using h
      simp [mergeAux]
    | _ :: _, [] =>
      simp only [mergeAux] at h
      obtain rfl : ([] : Bytes) = out := by simpa using h
      simp [mergeAux]
    | b :: rs, c :: ms =>
      by_cases hc : c = 0
      · rw [mergeAux, if_neg (by simp [hc])] at h
        by_cases hab : a = b
        · rw [if_pos hab] at h
          cases hrec : mergeAux ts rs ms (k + 1) with
          | ok os =>
            rw [hrec] at h
            simp only [Except.map, Except.ok.injEq] at h
            rw [← h, mergeAux, if_neg (by simp [hc]), if_pos rfl,
              ih rs ms (k + 1) os hrec]
            simp [Except.map]
          | error e => rw [hrec] at h; simp [Except.map] at h
        · rw [if_neg hab] at h; simp at h
      · rw [mergeAux, if_pos hc] at h
        cases hrec : mergeAux ts rs ms (k + 1) with
        | ok os =>
          rw [hrec] at h
          simp only [Except.map, Except.ok.injEq] at h
          rw [← h, mergeAux, if_pos hc, ih rs ms (k + 1) os hrec]
          simp [Except.map]
        | error e => rw [hrec] at h; simp [Except.map] at h

/-- A successful merge is stable: re-merging the target with the merge's own
output under the same mask succeeds and returns that output. Used by the match
validator argument: the synthesized calldata is accepted against the original. -/
theorem merge_stable (t r m out : Bytes) (h : merge t r m = .ok out) :
    merge t out m = .ok out :=
  mergeAux_stable t r m 0 out h

/-- Wyvern schema name (src/types.ts, lines 100 to 102). -/
inductive WyvernSchemaName
  | ERC721
  deriving DecidableEq

/-- Wyvern asset reference (src/types.ts, lines 104 to 107). -/
structure WyvernAsset where
  id : Nat
  address : Nat
  deriving DecidableEq

/-- Order metadata (src/types.ts, lines 237 to 241): asset reference plus schema,
informational only; never hashed. -/
structure OrderMetadata where
  asset : WyvernAsset
  schema : WyvernSchemaName
  deriving DecidableEq

/-- The hashed-field set of an order (spec section 3): every field the Order
Hasher serializes, in the contract's struct layout. Excludes the hash itself,
the signature and the metadata. Addresses are modelled by the number their hex
string denotes; prices use exact decimal semantics (ℚ); times are unix seconds. -/
structure HashedFields where
  exchange : Nat
  maker : Nat
  taker : Nat
  makerRelayerFee : Nat
  takerRelayerFee : Nat
  makerProtocolFee : Nat
  takerProtocolFee : Nat
  feeMethod : FeeMethod
  feeRecipient : Nat
  side : OrderSide
  saleKind : SaleKind
  target : Nat
  howToCall : Nat
  calldata : Bytes
  replacementPattern : Bytes
  staticTarget : Nat
  staticExtradata : Bytes
  paymentToken : Nat
  basePrice : ℚ
  extra : Nat
  listingTime : Nat
  expirationTime : Nat
  salt : Nat
  deriving DecidableEq

/-- The order record (src/types.ts, lines 231 to 258): the hashed fields plus
metadata, the optionally-attached `hash`, and the optional signature `v`, `r`,
`s`. An `UnhashedOrder` has `hash = none`; an `UnsignedOrder` has a hash but no
signature. -/
structure Order where
  exchange : Nat
  maker : Nat
  taker : Nat
  makerRelayerFee : Nat
  takerRelayerFee : Nat
  makerProtocolFee : Nat
  takerProtocolFee : Nat
  feeMethod : FeeMethod
  feeRecipient : Nat
  side : OrderSide
  saleKind : SaleKind
  target : Nat
  howToCall : Nat
  calldata : Bytes
  replacementPattern : Bytes
  staticTarget : Nat
  staticExtradata : Bytes
  paymentToken : Nat
  basePrice : ℚ
  extra : Nat
  listingTime : Nat
  expirationTime : Nat
  salt : Nat
  metadata : OrderMetadata
  hash : Option HashedFields
  v : Option Nat
  r : Option Nat
  s : Option Nat
  deriving DecidableEq

/-- Modelled from the spec: the Order Hasher (section 4.1). The serialization of
the hashed fields in the contract's layout is injective, and the content digest
is assumed collision-free (section 8: collision absence is assumed, not
tested), so the hash is modelled by the canonical hashed-field record itself.
It never consults `hash`, `v`, `r`, `s` or the metadata. -/
def getOrderHash (o : Order) : HashedFields :=
  { exchange := o.exchange
    maker := o.maker
    taker := o.taker
    makerRelayerFee := o.makerRelayerFee
    takerRelayerFee := o.takerRelayerFee
    makerProtocolFee := o.makerProtocolFee
    takerProtocolFee := o.takerProtocolFee
    feeMethod := o.feeMethod
    feeRecipient := o.feeRecipient
    side := o.side
    saleKind := o.saleKind
    target := o.target
    howToCall := o.howToCall
    calldata := o.calldata
    replacementPattern := o.replacementPattern
    staticTarget := o.staticTarget
    staticExtradata := o.staticExtradata
    paymentToken := o.paymentToken
    basePrice := o.basePrice
    extra := o.extra
    listingTime := o.listingTime
    expirationTime := o.expirationTime
    salt := o.salt }

/-- Two orders agree on every hashed field (spec section 3). -/
def agreeOnHashedFields (o p : Order) : Prop :=
  o.exchange = p.exchange ∧ o.maker = p.maker ∧ o.taker = p.taker ∧
  o.makerRelayerFee = p.makerRelayerFee ∧ o.takerRelayerFee = p.takerRelayerFee ∧
  o.makerProtocolFee = p.makerProtocolFee ∧ o.takerProtocolFee = p.takerProtocolFee ∧
  o.feeMethod = p.feeMethod ∧ o.feeRecipient = p.feeRecipient ∧
  o.side = p.side ∧ o.saleKind = p.saleKind ∧ o.target = p.target ∧
  o.howToCall = p.howToCall ∧ o.calldata = p.calldata ∧
  o.replacementPattern = p.replacementPattern ∧ o.staticTarget = p.staticTarget ∧
  o.staticExtradata = p.staticExtradata ∧ o.paymentToken = p.paymentToken ∧
  o.basePrice = p.basePrice ∧ o.extra = p.extra ∧ o.listingTime = p.listingTime ∧
  o.expirationTime = p.expirationTime ∧ o.salt = p.salt

/-- Modelled from the spec: the Price Calculator (section 4.2). `FixedPrice`
returns `basePrice` unchanged. `DutchAuction` interpolates linearly between
`basePrice` at `listingTime` and `basePrice ± extra` at `expirationTime`
(decreasing for sell, increasing for buy), clamped to the endpoints outside the
listing window; the arithmetic is exact rational. -/
def currentPrice (o : Order) (atTime : Nat) : ℚ :=
  match o.saleKind with
  | .FixedPrice => o.basePrice
  | .DutchAuction =>
    let clamped := max o.listingTime (min atTime o.expirationTime)
    let frac : ℚ :=
      ((clamped - o.listingTime : Nat) : ℚ) /
        ((o.expirationTime - o.listingTime : Nat) : ℚ)
    match o.side with
    | .Sell => o.basePrice - (o.extra : ℚ) * frac
    | .Buy => o.basePrice + (o.extra : ℚ) * frac

/-- A decimal string on the wire, modelled as its list of digits, most
significant first (spec section 6: numeric fields travel as decimal strings to
preserve arbitrary precision). -/
abbrev DecString := List Nat

/-- Render a natural number as a wire decimal string. -/
def encodeNat (n : Nat) : DecString :=
  (Nat.digits 10 n).reverse

/-- Parse a wire decimal string back into a natural number. -/
def decodeNat (s : DecString) : Nat :=
  Nat.ofDigits 10 s.reverse

theorem decodeNat_encodeNat (n : Nat) : decodeNat (encodeNat n) = n := by
  simp [decodeNat, encodeNat, Nat.ofDigits_digits]

/-- The wire-format order (src/types.ts, lines 260 to 313, and spec section 6):
fee, price and salt fields travel as decimal strings; addresses and hex byte
strings are modelled by the values they denote; enums travel as their enum
values (their small-integer encodings are fixed by `toNat`); `hash` may be
absent on an unhashed order; the signature components are optional. -/
structure OrderJSON where
  exchange : Nat
  maker : Nat
  taker : Nat
  makerRelayerFee : DecString
  takerRelayerFee : DecString
  makerProtocolFee : DecString
  takerProtocolFee : DecString
  feeRecipient : Nat
  feeMethod : FeeMethod
  side : OrderSide
  saleKind : SaleKind
  target : Nat
  howToCall : Nat
  calldata : Bytes
  replacementPattern : Bytes
  staticTarget : Nat
  staticExtradata : Bytes
  paymentToken : Nat
  basePrice : ℚ
  extra : DecString
  listingTime : Nat
  expirationTime : Nat
  salt : DecString
  metadata : OrderMetadata
  hash : Option HashedFields
  v : Option Nat
  r : Option Nat
  s : Option Nat
  deriving DecidableEq

/-- Modelled from the spec: `orderFromJSON` of the Order Factory (section 4.5 of
the data flow; src/wyvern is not under src/). Parses the wire order into the
typed representation, decoding the decimal-string numerics and carrying the
embedded hash and signature over unchanged. -/
def orderFromJSON (j : OrderJSON) : Order :=
  { exchange := j.exchange
    maker := j.maker
    taker := j.taker
    makerRelayerFee := decodeNat j.makerRelayerFee
    takerRelayerFee := decodeNat j.takerRelayerFee
    makerProtocolFee := decodeNat j.makerProtocolFee
    takerProtocolFee := decodeNat j.takerProtocolFee
    feeMethod := j.feeMethod
    feeRecipient := j.feeRecipient
    side := j.side
    saleKind := j.saleKind
    target := j.target
    howToCall := j.howToCall
    calldata := j.calldata
    replacementPattern := j.replacementPattern
    staticTarget := j.staticTarget
    staticExtradata := j.staticExtradata
    paymentToken := j.paymentToken
    basePrice := j.basePrice
    extra := decodeNat j.extra
    listingTime := j.listingTime
    expirationTime := j.expirationTime
    salt := decodeNat j.salt
    metadata := j.metadata
    hash := j.hash
    v := j.v
    r := j.r
    s := j.s }

/-- Modelled from the spec: `orderToJSON` of the Order Factory. Serializes the
typed order back to the wire shape, encoding numerics as decimal strings; the
emitted `hash` is the attached one, or is computed by the Order Hasher when the
order carries none (the test at part_000 lines 83 to 98: orderToJSON hashes if
necessary). -/
def orderToJSON (o : Order) : OrderJSON :=
  { exchange := o.exchange
    maker := o.maker
    taker := o.taker
    makerRelayerFee := encodeNat o.makerRelayerFee
    takerRelayerFee := encodeNat o.takerRelayerFee
    makerProtocolFee := encodeNat o.makerProtocolFee
    takerProtocolFee := encodeNat o.takerProtocolFee
    feeMethod := o.feeMethod
    feeRecipient := o.feeRecipient
    side := o.side
    saleKind := o.saleKind
    target := o.target
    howToCall := o.howToCall
    calldata := o.calldata
    replacementPattern := o.replacementPattern
    staticTarget := o.staticTarget
    staticExtradata := o.staticExtradata
    paymentToken := o.paymentToken
    basePrice := o.basePrice
    extra := encodeNat o.extra
    listingTime := o.listingTime
    expirationTime := o.expirationTime
    salt := encodeNat o.salt
    metadata := o.metadata
    hash := some (o.hash.getD (getOrderHash o))
    v := o.v
    r := o.r
    s := o.s }

/-- Modelled from the spec: the protocol's hashing rule applied directly to the
wire fields (the rule the fixtures' embedded `hash` values were produced by),
written independently of `orderFromJSON` so that agreement between the two is a
genuine commutation fact. -/
def hashFromJSON (j : OrderJSON) : HashedFields :=
  { exchange := j.exchange
    maker := j.maker
    taker := j.taker
    makerRelayerFee := decodeNat j.makerRelayerFee
    takerRelayerFee := decodeNat j.takerRelayerFee
    makerProtocolFee := decodeNat j.makerProtocolFee
    takerProtocolFee := decodeNat j.takerProtocolFee
    feeMethod := j.feeMethod
    feeRecipient := j.feeRecipient
    side := j.side
    saleKind := j.saleKind
    target := j.target
    howToCall := j.howToCall
    calldata := j.calldata
    replacementPattern := j.replacementPattern
    staticTarget := j.staticTarget
    staticExtradata := j.staticExtradata
    paymentToken := j.paymentToken
    basePrice := j.basePrice
    extra := decodeNat j.extra
    listingTime := j.listingTime
    expirationTime := j.expirationTime
    salt := decodeNat j.salt }

/-- Modelled from the spec: the external account/signing provider (section 6),
an opaque deterministic capability producing an ECDSA signature `(v, r, s)`
over a hash for an address. -/
def providerSign (address : Nat) (h : HashedFields) : Nat × Nat × Nat :=
  (27, Nat.pair address h.salt, Nat.pair h.maker h.target)

/-- Modelled from the spec: signature verification against the claimed address
and hash, the inverse capability of `providerSign`. -/
def verifySignature (address : Nat) (h : HashedFields) (v r s : Nat) : Bool :=
  (v, r, s) == providerSign address h

/-- An order carries a valid signature: its `v`, `r`, `s` are present and verify
against its own maker and its own canonical hash (spec section 3, invariants). -/
def sigValid (o : Order) : Bool :=
  match o.v, o.r, o.s with
  | some v, some r, some s => verifySignature o.maker (getOrderHash o) v r s
  | _, _, _ => false

/-- An order's temporal window admits `now`: its `listingTime` has been reached
and it is not expired (`expirationTime = 0` means it never expires, spec
section 3). -/
def withinWindow (o : Order) (now : Nat) : Bool :=
  decide (o.listingTime ≤ now) && (o.expirationTime == 0 || decide (now ≤ o.expirationTime))

/-- Modelled from the spec: `_validateMatch` of the Match Validator (section
4.6), the boolean fast path. Checks, in order: sides; same exchange, equal to
the configured verifying contract; same payment token; the calldata merger
accepts the pair under each side's replacement pattern; both temporal windows
admit `now`; the buy side's current price clears the sell side's; and the
signed order of the pair carries a signature valid for its own maker and hash. -/
def validateMatch (buy sell : Order) (exchangeAddress : Nat) (now : Nat) : Bool :=
  (buy.side == .Buy) && (sell.side == .Sell) &&
  (buy.exchange == sell.exchange) && (buy.exchange == exchangeAddress) &&
  (buy.paymentToken == sell.paymentToken) &&
  mergeOk sell.calldata buy.calldata sell.replacementPattern &&
  mergeOk buy.calldata sell.calldata buy.replacementPattern &&
  withinWindow buy now && withinWindow sell now &&
  decide (currentPrice sell now ≤ currentPrice buy now) &&
  (sigValid buy || sigValid sell)

/-- Modelled from the spec: the unhashed complementary order built by the Match
Synthesizer (section 4.5): maker/taker roles swapped to the filler, side
flipped, trade terms (sale kind, target, call type, payment token, fee fields,
extra, static guard) carried over, base price recomputed by the Price
Calculator at the current time, calldata merged against the complementary call
(`counterCall`, produced by the external schema encoder, with its pattern
`counterPattern`), listing time set to now, expiration mirroring the original,
and a fresh salt. -/
def matchingFields (order : Order) (accountAddress now freshSalt : Nat)
    (mergedCalldata counterPattern : Bytes) : Order :=
  { exchange := order.exchange
    maker := accountAddress
    taker := order.maker
    makerRelayerFee := order.makerRelayerFee
    takerRelayerFee := order.takerRelayerFee
    makerProtocolFee := order.makerProtocolFee
    takerProtocolFee := order.takerProtocolFee
    feeMethod := order.feeMethod
    feeRecipient := order.feeRecipient
    side := order.side.flip
    saleKind := order.saleKind
    target := order.target
    howToCall := order.howToCall
    calldata := mergedCalldata
    replacementPattern := counterPattern
    staticTarget := order.staticTarget
    staticExtradata := order.staticExtradata
    paymentToken := order.paymentToken
    basePrice := currentPrice order now
    extra := order.extra
    listingTime := now
    expirationTime := order.expirationTime
    salt := freshSalt
    metadata := order.metadata
    hash := none
    v := none
    r := none
    s := none }

/-- Modelled from the spec: `_makeMatchingOrder` of the Match Synthesizer
(section 4.5). Merges the original calldata with the complementary call under
the original replacement pattern (propagating `CalldataMismatchError`), builds
the complementary order, and attaches that order's own canonical hash; the
signature components are left unset. -/
def makeMatchingOrder (order : Order) (accountAddress now freshSalt : Nat)
    (counterCall counterPattern : Bytes) : Except MergeError Order :=
  match merge order.calldata counterCall order.replacementPattern with
  | .error e => .error e
  | .ok mergedCalldata =>
    let unhashed := matchingFields order accountAddress now freshSalt mergedCalldata counterPattern
    .ok { unhashed with hash := some (getOrderHash unhashed) }

/-- A concrete sell order used to instantiate the universally quantified
theorems on explicit inputs. -/
def baseOrder : Order :=
  { exchange := 11
    maker := 3
    taker := 0
    makerRelayerFee := 250
    takerRelayerFee := 0
    makerProtocolFee := 0
    takerProtocolFee := 0
    feeMethod := .SplitFee
    feeRecipient := 13
    side := .Sell
    saleKind := .FixedPrice
    target := 4
    howToCall := 0
    calldata := [35, 0, 0, 6]
    replacementPattern := [0, 0, 255, 0]
    staticTarget := 0
    staticExtradata := []
    paymentToken := 5
    basePrice := 1000
    extra := 0
    listingTime := 10
    expirationTime := 100
    salt := 6
    metadata := { asset := { id := 7, address := 4 }, schema := .ERC721 }
    hash := none
    v := none
    r := none
    s := none }

/-- C10: the closed enumerations carry exactly the small-integer encodings of
src/types.ts — `Buy = 0`, `Sell = 1`; `ProtocolFee = 0`, `SplitFee = 1`;
`FixedPrice = 0`, `DutchAuction = 1` — and the `SaleKind` encoding differs from
the upstream wyvern-js one, which uses 1 for EnglishAuction and 2 for
DutchAuction. -/
theorem enum_encodings :
    OrderSide.toNat .Buy = 0 ∧ OrderSide.toNat .Sell = 1 ∧
    FeeMethod.toNat .ProtocolFee = 0 ∧ FeeMethod.toNat .SplitFee = 1 ∧
    SaleKind.toNat .FixedPrice = 0 ∧ SaleKind.toNat .DutchAuction = 1 ∧
    WyvernLibSaleKind.toNat .EnglishAuction = 1 ∧
    WyvernLibSaleKind.toNat .DutchAuction = 2 ∧
    SaleKind.toNat .DutchAuction ≠ WyvernLibSaleKind.toNat .DutchAuction := by
  decide

/-- C7: the Order Hasher is a function of exactly the hashed-field set — two
orders agreeing on every hashed field (whatever their signature `v`, `r`, `s`,
metadata or attached hash) get the same hash, and two orders differing in at
least one hashed field get different hashes (field-sensitivity; collision
absence of the underlying digest is assumed, as in spec section 8). -/
theorem orderHash_field_sensitivity (o p : Order) :
    (agreeOnHashedFields o p → getOrderHash o = getOrderHash p) ∧
    (¬ agreeOnHashedFields o p → getOrderHash o ≠ getOrderHash p) := by
  constructor
  · intro h
    simpa only [getOrderHash, HashedFields.mk.injEq, agreeOnHashedFields] using h
  · intro h hEq
    exact h (by simpa only [getOrderHash, HashedFields.mk.injEq, agreeOnHashedFields] using hEq)

theorem orderHash_field_sensitivity_witness :
    getOrderHash baseOrder = getOrderHash { baseOrder with v := some 27, r := some 5, s := some 9 } ∧
    getOrderHash baseOrder ≠ getOrderHash { baseOrder with salt := 99 } :=
  ⟨(orderHash_field_sensitivity baseOrder _).1 (by unfold agreeOnHashedFields; decide),
   (orderHash_field_sensitivity baseOrder _).2 (by unfold agreeOnHashedFields; decide)⟩

/-- C9: on an order whose `hash` is absent, `orderToJSON` computes the canonical
hash itself and emits it, and the emitted value is `getOrderHash` of the order. -/
theorem orderToJSON_computes_hash (o : Order) (h : o.hash = none) :
    (orderToJSON o).hash = some (getOrderHash o) := by
  simp [orderToJSON, h]

theorem orderToJSON_computes_hash_witness :
    (orderToJSON baseOrder).hash = some (getOrderHash baseOrder) :=
  orderToJSON_computes_hash baseOrder rfl

/-- C8: serializing a parsed wire order and parsing it again preserves the hash:
`hash(parse(json)) = hash(parse(orderToJSON(parse(json))))`. -/
theorem orderJSON_roundtrip_hash_stable (j : OrderJSON) :
    getOrderHash (orderFromJSON (orderToJSON (orderFromJSON j))) =
      getOrderHash (orderFromJSON j) := by
  simp [getOrderHash, orderFromJSON, orderToJSON, decodeNat_encodeNat]

/-- A concrete wire fixture without its hash attached. -/
def sampleFixtureCore : OrderJSON :=
  { exchange := 11
    maker := 3
    taker := 0
    makerRelayerFee := [2, 5, 0]
    takerRelayerFee := []
    makerProtocolFee := []
    takerProtocolFee := []
    feeRecipient := 13
    feeMethod := .SplitFee
    side := .Sell
    saleKind := .FixedPrice
    target := 4
    howToCall := 0
    calldata := [35, 0, 0, 6]
    replacementPattern := [0, 0, 255, 0]
    staticTarget := 0
    staticExtradata := []
    paymentToken := 5
    basePrice := 1000
    extra := []
    listingTime := 10
    expirationTime := 100
    salt := [6]
    metadata := { asset := { id := 7, address := 4 }, schema := .ERC721 }
    hash := none
    v := some 27
    r := some 1
    s := some 2 }

/-- The fixture of `sampleFixtureCore` with its protocol hash embedded, as the
orderbook serves it. -/
def sampleFixture : OrderJSON :=
  { sampleFixtureCore with hash := some (hashFromJSON sampleFixtureCore) }

/-- C2: on a wire fixture whose embedded `hash` is the protocol's hash of its
own fields, `orderFromJSON` followed by `getOrderHash` returns exactly the
embedded hash, and the parsed order satisfies the test-suite check
`order.hash = getOrderHash(order)` (part_000, lines 53 to 58). -/
theorem fixture_hash_roundtrip (j : OrderJSON) (h : HashedFields)
    (hemb : j.hash = some h) (hcanon : hashFromJSON j = h) :
    getOrderHash (orderFromJSON j) = h ∧
    (orderFromJSON j).hash = some (getOrderHash (orderFromJSON j)) := by
  have hcommute : getOrderHash (orderFromJSON j) = hashFromJSON j := by
    simp [getOrderHash, orderFromJSON, hashFromJSON]
  constructor
  · rw [hcommute, hcanon]
  · show j.hash = some (getOrderHash (orderFromJSON j))
    rw [hemb, hcommute, hcanon]

theorem fixture_hash_roundtrip_witness :
    getOrderHash (orderFromJSON sampleFixture) = hashFromJSON sampleFixtureCore ∧
    (orderFromJSON sampleFixture).hash = some (getOrderHash (orderFromJSON sampleFixture)) :=
  fixture_hash_roundtrip sampleFixture (hashFromJSON sampleFixtureCore) rfl rfl

/-- A concrete Dutch-auction sell order. -/
def sampleDutch : Order :=
  { baseOrder with
    saleKind := .DutchAuction
    basePrice := 100
    extra := 50
    listingTime := 10
    expirationTime := 110 }

/-- C6: the current price of a `FixedPrice` order is time-invariant, and for a
`DutchAuction` sell order the current price is non-increasing across the
listing window: `currentPrice(t) ≥ currentPrice(u)` whenever
`listingTime ≤ t < u ≤ expirationTime`. -/
theorem currentPrice_fixed_invariant_dutch_monotone (o : Order) :
    (o.saleKind = .FixedPrice → ∀ t u : Nat, currentPrice o t = currentPrice o u) ∧
    (o.saleKind = .DutchAuction → o.side = .Sell → ∀ t u : Nat,
      o.listingTime ≤ t → t < u → u ≤ o.expirationTime →
      currentPrice o u ≤ currentPrice o t) := by
  constructor
  · intro hk t u
    simp [currentPrice, hk]
  · intro hk hs t u hlt htu hue
    have hle : o.listingTime < o.expirationTime := by omega
    have hct : max o.listingTime (min t o.expirationTime) = t := by
      rw [min_eq_left (by omega), max_eq_right hlt]
    have hcu : max o.listingTime (min u o.expirationTime) = u := by
      rw [min_eq_left hue, max_eq_right (by omega)]
    simp only [currentPrice, hk, hs]
    rw [hct, hcu]
    have hden : (0 : ℚ) < ((o.expirationTime - o.listingTime : Nat) : ℚ) := by
      exact_mod_cast Nat.sub_pos_of_lt hle
    have hnum : ((t - o.listingTime : Nat) : ℚ) ≤ ((u - o.listingTime : Nat) : ℚ) := by
      exact_mod_cast Nat.sub_le_sub_right (Nat.le_of_lt htu) o.listingTime
    have hfrac : ((t - o.listingTime : Nat) : ℚ) / ((o.expirationTime - o.listingTime : Nat) : ℚ) ≤
        ((u - o.listingTime : Nat) : ℚ) / ((o.expirationTime - o.listingTime : Nat) : ℚ) := by
      rw [div_eq_mul_inv, div_eq_mul_inv]
      exact mul_le_mul_of_nonneg_right hnum (inv_nonneg.mpr (le_of_lt hden))
    exact sub_le_sub_left (mul_le_mul_of_nonneg_left hfrac (Nat.cast_nonneg o.extra)) o.basePrice

theorem currentPrice_fixed_invariant_dutch_monotone_witness :
    sampleDutch.saleKind = .DutchAuction ∧ sampleDutch.side = .Sell ∧
    sampleDutch.listingTime ≤ 30 ∧ 30 < 60 ∧ 60 ≤ sampleDutch.expirationTime ∧
    currentPrice sampleDutch 60 ≤ currentPrice sampleDutch 30 :=
  ⟨rfl, rfl, by decide, by decide, by decide,
   (currentPrice_fixed_invariant_dutch_monotone sampleDutch).2 rfl rfl 30 60
     (by decide) (by decide) (by decide)⟩

/-- C3: for a sell order within its window and carrying a valid maker
signature, the synthesized matching order has side `Buy` and the sell order's
`target`, `paymentToken` and `saleKind`; and `validateMatch` accepts the
(buy, sell) pair — with the original signature overlaid on the synthesized
side for wire uniformity — at the synthesis time, against the sell order's
exchange, provided the synthesized calldata is accepted back under the
counter-pattern. -/
theorem makeMatchingOrder_valid_match
    (sell : Order) (accountAddress now freshSalt : Nat)
    (counterCall counterPattern : Bytes) (buy : Order)
    (hside : sell.side = .Sell)
    (hmk : makeMatchingOrder sell accountAddress now freshSalt counterCall counterPattern = .ok buy)
    (hlist : sell.listingTime ≤ now)
    (hexp : sell.expirationTime = 0 ∨ now ≤ sell.expirationTime)
    (hsig : sigValid sell = true)
    (hback : mergeOk buy.calldata sell.calldata counterPattern = true) :
    buy.side = .Buy ∧ buy.target = sell.target ∧
    buy.paymentToken = sell.paymentToken ∧ buy.saleKind = sell.saleKind ∧
    validateMatch { buy with v := sell.v, r := sell.r, s := sell.s } sell
      sell.exchange now = true := by
  rw [makeMatchingOrder] at hmk
  cases hmerge : merge sell.calldata counterCall sell.replacementPattern with
  | error e =>
    rw [hmerge] at hmk
    cases hmk
  | ok md =>
    rw [hmerge] at hmk
    simp only [Except.ok.injEq] at hmk
    subst hmk
    refine ⟨by simp [matchingFields, hside, OrderSide.flip], rfl, rfl, rfl, ?_⟩
    have hstable := merge_stable _ _ _ _ hmerge
    simp only [matchingFields, mergeOk] at hback
    rcases hexp with hexp | hexp <;>
      cases hsk : sell.saleKind <;>
        simp [validateMatch, matchingFields, withinWindow, mergeOk, hstable, hside,
          OrderSide.flip, hlist, hsig, hback, hsk, hexp, currentPrice, Nat.sub_self,
          max_eq_left, min_le_left]

/-- The sample sell order with its maker's signature attached. -/
def sampleSigned : Order :=
  { baseOrder with
    v := some (providerSign 3 (getOrderHash baseOrder)).1
    r := some (providerSign 3 (getOrderHash baseOrder)).2.1
    s := some (providerSign 3 (getOrderHash baseOrder)).2.2 }

/-- The complementary call a filler would encode against `baseOrder`'s calldata:
it substitutes the byte the replacement pattern frees. -/
def sampleCounterCall : Bytes := [35, 0, 9, 6]

/-- The replacement pattern attached to the synthesized side. -/
def sampleCounterPattern : Bytes := [0, 0, 255, 0]

/-- The synthesized matching order for `sampleSigned`, filler address 21, at
time 50 with fresh salt 777. -/
def sampleMatching : Order :=
  match makeMatchingOrder sampleSigned 21 50 777 sampleCounterCall sampleCounterPattern with
  | .ok o => o
  | .error _ => baseOrder

theorem makeMatchingOrder_valid_match_witness :
    sampleMatching.side = .Buy ∧ sampleMatching.target = sampleSigned.target ∧
    sampleMatching.paymentToken = sampleSigned.paymentToken ∧
    sampleMatching.saleKind = sampleSigned.saleKind ∧
    validateMatch { sampleMatching with v := sampleSigned.v, r := sampleSigned.r, s := sampleSigned.s }
      sampleSigned sampleSigned.exchange 50 = true :=
  makeMatchingOrder_valid_match sampleSigned 21 50 777 sampleCounterCall sampleCounterPattern
    sampleMatching rfl rfl (by decide) (Or.inr (by decide)) (by decide) (by decide)

/-- C1 (settled on the spec-modelled synthesizer, section 4.5): the synthesized
matching order carries its own canonical hash in its `hash` field, and that
hash differs from the hash of the original order being filled (the hashed
fields differ: swapped side, fresh salt). Evaluated at a concrete input, this
also exhibits that the equality asserted by the repository test
(part_000, line 108: `matchingOrder.hash == getOrderHash(order)`) fails. -/
theorem matchingOrder_carries_own_hash :
    makeMatchingOrder sampleSigned 21 50 777 sampleCounterCall sampleCounterPattern
      = .ok sampleMatching ∧
    sampleMatching.hash = some (getOrderHash sampleMatching) ∧
    getOrderHash sampleMatching ≠ getOrderHash sampleSigned := by
  refine ⟨rfl, rfl, ?_⟩
  decide

end Opensea
